import Mathlib

/-!
Verification of the core of a TrueType/OpenType font parser
(`src/lib.rs` and `src/aat.rs`) against its natural-language specification.

Byte buffers are modelled as `List Nat` (each element one octet).
Machine integers (u8/u16/u32/usize) are modelled as `Nat`; all the modelled
arithmetic stays far below the respective bounds, except where the source
itself truncates (`as u16`), which is modelled with `% 65536`.
The source's byte-reader (`parser` module: `Stream`, `FromData`,
`LazyArray16`) is not part of the two provided source files, so those
primitives are modelled from the spec (sections 4.A and 4.B).
-/

namespace TtfParser

/-- Modelled from the spec (4.A): big-endian u8 read at an absolute offset;
out-of-bounds reads fail. -/
def readU8At (data : List Nat) (off : Nat) : Option Nat :=
  data[off]?

/-- Modelled from the spec (4.A): big-endian u16 read at an absolute offset;
out-of-bounds reads fail. -/
def readU16At (data : List Nat) (off : Nat) : Option Nat :=
  match data[off]?, data[off + 1]? with
  | some a, some b => some (a * 256 + b)
  | _, _ => none

/-- Modelled from the spec (4.A): big-endian u32 read at an absolute offset;
out-of-bounds reads fail. -/
def readU32At (data : List Nat) (off : Nat) : Option Nat :=
  match data[off]?, data[off + 1]?, data[off + 2]?, data[off + 3]? with
  | some a, some b, some c, some d =>
      some (((a * 256 + b) * 256 + c) * 256 + d)
  | _, _, _, _ => none

/-- Modelled from the spec (4.A): the `FromData` trait of the byte reader,
an element byte size together with a parser for a slice of that size. -/
structure FromDataSpec (α : Type) where
  size : Nat
  parse : List Nat → Option α

/-- `u8` as `FromData` (`SIZE = 1`). -/
def u8Data : FromDataSpec Nat :=
  ⟨1, fun l => l[0]?⟩

/-- `u16` as `FromData` (`SIZE = 2`, big-endian). -/
def u16Data : FromDataSpec Nat :=
  ⟨2, fun l => readU16At l 0⟩

/-- `u32` as `FromData` (`SIZE = 4`, big-endian). -/
def u32Data : FromDataSpec Nat :=
  ⟨4, fun l => readU32At l 0⟩

/-- Modelled from the spec (4.B, 3): a lazy fixed-stride array view:
base slice, element parser and element count. -/
structure LazyArr (α : Type) where
  fd : FromDataSpec α
  data : List Nat
  count : Nat

/-- Modelled from the spec (4.B): `get(i)` returns none if `i ≥ count`,
otherwise parses element `i` from `base[i*stride .. i*stride+stride]`. -/
def LazyArr.get {α : Type} (a : LazyArr α) (i : Nat) : Option α :=
  if i < a.count then a.fd.parse ((a.data.drop (i * a.fd.size)).take a.fd.size)
  else none

/-- `LazyArray16::last`: the last element, none when empty. -/
def LazyArr.last {α : Type} (a : LazyArr α) : Option α :=
  if a.count = 0 then none else a.get (a.count - 1)

/-- Modelled from the spec (4.A): `Stream::read_at::<T>(data, offset)`,
bounds-checked random access parse of one element. -/
def readAt {α : Type} (fd : FromDataSpec α) (data : List Nat) (off : Nat) : Option α :=
  if off + fd.size ≤ data.length then fd.parse ((data.drop off).take fd.size)
  else none

/-- Modelled from the spec (4.A): `Stream::read_array16::<T>(n)` taken at the
current position: consumes the next `n * SIZE` bytes as a lazy array, failing
when fewer bytes remain. -/
def readArray16 {α : Type} (fd : FromDataSpec α) (data : List Nat) (n : Nat) :
    Option (LazyArr α) :=
  if n * fd.size ≤ data.length then some ⟨fd, data.take (n * fd.size), n⟩
  else none

/-- `u16::checked_sub` on the model. -/
def checkedSub (a b : Nat) : Option Nat :=
  if b ≤ a then some (a - b) else none

/-! ## AAT predefined classes (`aat.rs`, `mod class`) -/

def END_OF_TEXT : Nat := 0
def OUT_OF_BOUNDS : Nat := 1
def DELETED_GLYPH : Nat := 2

/-! ## AAT binary-search tables (`aat.rs`) -/

/-- `LookupSegment`: a glyph range with an associated value
(fields in on-disk order). -/
structure LookupSegment where
  last_glyph : Nat
  first_glyph : Nat
  value : Nat
deriving DecidableEq

/-- `FromData for LookupSegment` (`SIZE = 6`). -/
def lookupSegmentData : FromDataSpec LookupSegment :=
  ⟨6, fun l =>
    match readU16At l 0, readU16At l 2, readU16At l 4 with
    | some a, some b, some c => some ⟨a, b, c⟩
    | _, _, _ => none⟩

/-- `LookupSingle`: a single glyph with an associated value. -/
structure LookupSingle where
  glyph : Nat
  value : Nat
deriving DecidableEq

/-- `FromData for LookupSingle` (`SIZE = 4`). -/
def lookupSingleData : FromDataSpec LookupSingle :=
  ⟨4, fun l =>
    match readU16At l 0, readU16At l 2 with
    | some a, some b => some ⟨a, b⟩
    | _, _ => none⟩

/-- The `BinarySearchValue` trait: element parser, sentinel test and
three-way comparison against a glyph id. -/
structure BSearchValue (α : Type) where
  fd : FromDataSpec α
  is_termination : α → Bool
  contains : α → Nat → Ordering

/-- `BinarySearchValue for LookupSegment`. -/
def segBSV : BSearchValue LookupSegment where
  fd := lookupSegmentData
  is_termination := fun s => s.last_glyph == 65535 && s.first_glyph == 65535
  contains := fun s id =>
    if id < s.first_glyph then .lt
    else if id ≤ s.last_glyph then .eq
    else .gt

/-- `BinarySearchValue for LookupSingle`. -/
def singleBSV : BSearchValue LookupSingle where
  fd := lookupSingleData
  is_termination := fun s => s.glyph == 65535
  contains := fun s id => compare id s.glyph

/-- `BinarySearchTable`: the values array (sentinel included) and the
searchable length (sentinel excluded, kept non-zero by `parse`). -/
structure BinarySearchTable (α : Type) where
  values : LazyArr α
  len : Nat

/-- `BinarySearchTable::parse`: header `{segment_size, number_of_segments}`,
6 skipped hint bytes, the segment array, then sentinel trimming.
A stride mismatch, a zero segment count, a short array or a searchable
length of zero are parse failures. -/
def BinarySearchTable.parse {α : Type} (bsv : BSearchValue α) (data : List Nat) :
    Option (BinarySearchTable α) :=
  match readU16At data 0, readU16At data 2 with
  | some segment_size, some number_of_segments =>
    -- s.advance(6): search_range + entry_selector + range_shift
    if segment_size ≠ bsv.fd.size then none
    else if number_of_segments = 0 then none
    else
      match readArray16 bsv.fd (data.drop 10) number_of_segments with
      | none => none
      | some values =>
        match values.last with
        | none => none
        | some lastValue =>
          let len := if bsv.is_termination lastValue then number_of_segments - 1
                     else number_of_segments
          if len = 0 then none else some ⟨values, len⟩
  | _, _ => none

/-- The loop of `BinarySearchTable::get`, with the source's `isize` bounds
modelled as `Int` and an explicit fuel argument (the interval shrinks each
round, so `len + 1` rounds always suffice; see `BinarySearchTable.get`). -/
def bsearchLoop {α : Type} (bsv : BSearchValue α) (values : LazyArr α) (key : Nat) :
    Nat → Int → Int → Option α
  | 0, _, _ => none
  | fuel + 1, min, max =>
    if min ≤ max then
      let mid := (min + max) / 2
      match values.get mid.toNat with
      | none => none
      | some v =>
        match bsv.contains v key with
        | .lt => bsearchLoop bsv values key fuel min (mid - 1)
        | .gt => bsearchLoop bsv values key fuel (mid + 1) max
        | .eq => some v
    else none

/-- `BinarySearchTable::get`: binary search over the first `len` values. -/
def BinarySearchTable.get {α : Type} (bsv : BSearchValue α) (t : BinarySearchTable α)
    (key : Nat) : Option α :=
  bsearchLoop bsv t.values key (t.len + 1) 0 ((t.len : Int) - 1)

/-! ## AAT lookup tables (`aat.rs`, `LookupInner` / `Lookup`) -/

/-- `LookupInner`: the six supported on-disk lookup formats. -/
inductive LookupInner where
  | format1 (values : LazyArr Nat)
  | format2 (bsearch : BinarySearchTable LookupSegment)
  | format4 (bsearch : BinarySearchTable LookupSegment) (data : List Nat)
  | format6 (bsearch : BinarySearchTable LookupSingle)
  | format8 (first_glyph : Nat) (values : LazyArr Nat)
  | format10 (value_size : Nat) (first_glyph : Nat) (glyph_count : Nat) (data : List Nat)

/-- `LookupInner::parse`: reads the u16 format code and dispatches.
Offsets mirror the stream position (`format` at 0, the tail at 2). -/
def LookupInner.parse (number_of_glyphs : Nat) (data : List Nat) : Option LookupInner :=
  match readU16At data 0 with
  | none => none
  | some format =>
    match format with
    | 0 => (readArray16 u16Data (data.drop 2) number_of_glyphs).map .format1
    | 2 => (BinarySearchTable.parse segBSV (data.drop 2)).map .format2
    | 4 => (BinarySearchTable.parse segBSV (data.drop 2)).map (.format4 · data)
    | 6 => (BinarySearchTable.parse singleBSV (data.drop 2)).map .format6
    | 8 =>
      match readU16At data 2, readU16At data 4 with
      | some first_glyph, some glyph_count =>
        (readArray16 u16Data (data.drop 6) glyph_count).map (.format8 first_glyph)
      | _, _ => none
    | 10 =>
      match readU16At data 2, readU16At data 4, readU16At data 6 with
      | some value_size, some first_glyph, some glyph_count =>
        some (.format10 value_size first_glyph glyph_count (data.drop 8))
      | _, _, _ => none
    | _ => none

/-- `LookupInner::value`: glyph to value resolution per format.
In format 10 with `value_size = 4`, the u32 element is returned `as u16`,
modelled as `% 65536`; any other `value_size` outside {1, 2, 4} yields none. -/
def LookupInner.value (l : LookupInner) (glyph_id : Nat) : Option Nat :=
  match l with
  | .format1 values => values.get glyph_id
  | .format2 bsearch => (bsearch.get segBSV glyph_id).map (·.value)
  | .format4 bsearch data =>
    match bsearch.get segBSV glyph_id with
    | none => none
    | some segment =>
      match checkedSub glyph_id segment.first_glyph with
      | none => none
      | some index => readAt u16Data data (segment.value + 2 * index)
  | .format6 bsearch => (bsearch.get singleBSV glyph_id).map (·.value)
  | .format8 first_glyph values =>
    match checkedSub glyph_id first_glyph with
    | none => none
    | some idx => values.get idx
  | .format10 value_size first_glyph glyph_count data =>
    match checkedSub glyph_id first_glyph with
    | none => none
    | some idx =>
      match value_size with
      | 1 => (readArray16 u8Data data glyph_count).bind (fun arr => arr.get idx)
      | 2 => (readArray16 u16Data data glyph_count).bind (fun arr => arr.get idx)
      | 4 => ((readArray16 u32Data data glyph_count).bind (fun arr => arr.get idx)).map
               (· % 65536)
      | _ => none

/-- `Lookup`: the public wrapper around `LookupInner`. -/
structure Lookup where
  data : LookupInner

/-- `Lookup::parse`. -/
def Lookup.parse (number_of_glyphs : Nat) (data : List Nat) : Option Lookup :=
  (LookupInner.parse number_of_glyphs data).map Lookup.mk

/-- `Lookup::value`. -/
def Lookup.value (l : Lookup) (glyph_id : Nat) : Option Nat :=
  l.data.value glyph_id

/-! ## AAT extended state table (`aat.rs`, `ExtendedStateTable`) -/

/-- `ExtendedStateEntry`: a state-machine entry with a format-specific
extra payload. -/
structure ExtendedStateEntry (T : Type) where
  new_state : Nat
  flags : Nat
  extra : T

/-- `FromData for ExtendedStateEntry<T>` (`SIZE = 4 + T::SIZE`):
`new_state` and `flags` as big-endian u16, then the payload. -/
def entryFromData {T : Type} (fd : FromDataSpec T) : FromDataSpec (ExtendedStateEntry T) :=
  ⟨4 + fd.size, fun l =>
    match readU16At l 0, readU16At l 2, fd.parse ((l.drop 4).take fd.size) with
    | some new_state, some flags, some extra => some ⟨new_state, flags, extra⟩
    | _, _, _ => none⟩

/-- `ExtendedStateTable`: class count, the glyph-class lookup and the raw
state-array and entry-table regions. -/
structure ExtendedStateTable (T : Type) where
  number_of_classes : Nat
  lookup : Lookup
  state_array : List Nat
  entry_table : List Nat

/-- `ExtendedStateTable::class`: glyph 0xFFFF is always the deleted-glyph
class; every other glyph goes through the lookup. -/
def ExtendedStateTable.classOf {T : Type} (t : ExtendedStateTable T) (glyph_id : Nat) :
    Option Nat :=
  if glyph_id = 65535 then some DELETED_GLYPH
  else t.lookup.value glyph_id

/-- `ExtendedStateTable::entry`: classes at or above `number_of_classes` are
coerced to `OUT_OF_BOUNDS`, then the state array and the entry table are
indexed with bounds-checked reads. -/
def ExtendedStateTable.entry {T : Type} (fd : FromDataSpec T) (t : ExtendedStateTable T)
    (state cls : Nat) : Option (ExtendedStateEntry T) :=
  let cls := if t.number_of_classes ≤ cls then OUT_OF_BOUNDS else cls
  let state_idx := state * t.number_of_classes + cls
  match readU16At t.state_array (state_idx * 2) with
  | none => none
  | some entry_idx => readAt (entryFromData fd) t.entry_table (entry_idx * (4 + fd.size))

/-! ## Tags (`lib.rs`, `Tag`) -/

/-- `Tag::from_bytes`: the four bytes packed big-endian into a u32.
The source writes `(b0 << 24) | (b1 << 16) | (b2 << 8) | b3`; for byte
inputs the shifted fields are disjoint, so the bit-or is this sum. -/
def Tag.fromBytes (b0 b1 b2 b3 : Nat) : Nat :=
  ((b0 * 256 + b1) * 256 + b2) * 256 + b3

/-- `Tag::from_bytes_lossy`: the empty slice gives the null tag; otherwise
the first four of the slice chained with repeated 0x20 padding. -/
def Tag.fromBytesLossy (bytes : List Nat) : Nat :=
  if bytes = [] then Tag.fromBytes 0 0 0 0
  else
    let padded := bytes ++ [32, 32, 32, 32]
    Tag.fromBytes (padded.getD 0 0) (padded.getD 1 0) (padded.getD 2 0) (padded.getD 3 0)

/-- `Tag::to_bytes`: the four big-endian bytes of the u32; the source's
`(t >> k) & 0xff` is division and remainder by powers of 256. -/
def Tag.toBytes (t : Nat) : List Nat :=
  [t / 16777216 % 256, t / 65536 % 256, t / 256 % 256, t % 256]

end TtfParser

namespace TtfParser

/-! ## Claims C1, C2, C8 -/

/-- C1: for every AAT extended state table, `class` of the glyph id 0xFFFF is
`Some DELETED_GLYPH` (= 2), regardless of the table's glyph-class lookup. -/
theorem c1_deleted_glyph_class {T : Type} (t : ExtendedStateTable T) :
    t.classOf 65535 = some 2 := by
  rfl

/-- C2: in `ExtendedStateTable::entry`, any class at or above
`number_of_classes` is coerced to the OUT_OF_BOUNDS class 1 before indexing,
so `entry s c` with `c ≥ number_of_classes` equals `entry s 1`. -/
theorem c2_out_of_bounds_class_coercion {T : Type} (fd : FromDataSpec T)
    (t : ExtendedStateTable T) (s c : Nat) (hc : t.number_of_classes ≤ c)
    (hbound : c < 65536) :
    t.entry fd s c = t.entry fd s 1 := by
  unfold ExtendedStateTable.entry
  rw [if_pos hc]
  rcases le_or_lt t.number_of_classes 1 with h1 | h1
  · rw [if_pos h1]
  · rw [if_neg (Nat.not_le.mpr h1)]
    rfl

/-- Witness for C2 at a concrete table with 4 classes and class 5. -/
theorem c2_out_of_bounds_class_coercion_witness :
    let fd : FromDataSpec Unit := ⟨0, fun _ => some ()⟩
    let t : ExtendedStateTable Unit := ⟨4, ⟨.format10 8 0 0 []⟩, [], []⟩
    t.entry fd 0 5 = t.entry fd 0 1 :=
  c2_out_of_bounds_class_coercion _ _ 0 5 (by decide) (by decide)

/-- A helper for C8: `to_bytes` undoes `from_bytes` on byte inputs. -/
theorem toBytes_fromBytes (b0 b1 b2 b3 : Nat) (h0 : b0 < 256) (h1 : b1 < 256)
    (h2 : b2 < 256) (h3 : b3 < 256) :
    Tag.toBytes (Tag.fromBytes b0 b1 b2 b3) = [b0, b1, b2, b3] := by
  unfold Tag.toBytes Tag.fromBytes
  simp only [List.cons.injEq, and_true]
  omega

/-- C8 counterexample: the claim asserts space padding for every slice of
length k < 4, but `from_bytes_lossy` of the empty slice is the null tag,
whose bytes are zero, not 0x20. -/
theorem c8_lossy_empty_counterexample :
    ¬ (Tag.fromBytesLossy [] = Tag.fromBytes 32 32 32 32) := by
  decide

/-- C8 (amended): `from_bytes(b).to_bytes() = b` for all byte quadruples; and
`from_bytes_lossy` of a non-empty slice of length k < 4 pads the remaining
bytes with 0x20, while the empty slice yields the null tag. -/
theorem c8_tag_round_trip_amended (b0 b1 b2 b3 : Nat) (h0 : b0 < 256)
    (h1 : b1 < 256) (h2 : b2 < 256) (h3 : b3 < 256) (bytes : List Nat)
    (hne : bytes ≠ []) (hlen : bytes.length < 4) (hb : ∀ x ∈ bytes, x < 256) :
    Tag.toBytes (Tag.fromBytes b0 b1 b2 b3) = [b0, b1, b2, b3]
    ∧ Tag.toBytes (Tag.fromBytesLossy bytes)
        = bytes ++ List.replicate (4 - bytes.length) 32
    ∧ Tag.fromBytesLossy [] = 0 := by
  refine ⟨toBytes_fromBytes b0 b1 b2 b3 h0 h1 h2 h3, ?_, rfl⟩
  match bytes, hne, hlen with
  | [a], _, _ =>
    have ha : a < 256 := hb a (by simp)
    simpa [Tag.fromBytesLossy] using toBytes_fromBytes a 32 32 32 ha (by omega)
      (by omega) (by omega)
  | [a, b], _, _ =>
    have ha : a < 256 := hb a (by simp)
    have hbb : b < 256 := hb b (by simp)
    simpa [Tag.fromBytesLossy] using toBytes_fromBytes a b 32 32 ha hbb (by omega)
      (by omega)
  | [a, b, c], _, _ =>
    have ha : a < 256 := hb a (by simp)
    have hbb : b < 256 := hb b (by simp)
    have hcc : c < 256 := hb c (by simp)
    simpa [Tag.fromBytesLossy] using toBytes_fromBytes a b c 32 ha hbb hcc (by omega)

/-- Witness for C8 at the quadruple (1, 2, 3, 4) and the slice [65]. -/
theorem c8_tag_round_trip_amended_witness :
    Tag.toBytes (Tag.fromBytes 1 2 3 4) = [1, 2, 3, 4]
    ∧ Tag.toBytes (Tag.fromBytesLossy [65]) = [65] ++ List.replicate 3 32
    ∧ Tag.fromBytesLossy [] = 0 :=
  c8_tag_round_trip_amended 1 2 3 4 (by decide) (by decide) (by decide) (by decide)
    [65] (by decide) (by decide) (by decide)

/-! ## Claims C4, C5, C10 -/

/-- C4: a Format-6 lookup with singletons (10,100), (20,200), (30,300) and a
trailing 0xFFFF sentinel parses with the sentinel excluded from the
searchable length: value(20) = some 200, value(25) = none and
value(0xFFFF) = none. -/
theorem c4_format6_sentinel_exclusion :
    (Lookup.parse 1
        [0, 6, 0, 4, 0, 4, 0, 0, 0, 0, 0, 0,
         0, 10, 0, 100, 0, 20, 0, 200, 0, 30, 1, 44, 255, 255, 255, 255]).map
      (fun l => (l.value 20, l.value 25, l.value 65535))
      = some (some 200, none, none) := by
  rfl

/-- C5 counterexample: a Format-10 lookup with the unsupported
value_size = 8 still parses successfully; `Lookup::parse` does not fail. -/
theorem c5_format10_parse_counterexample :
    (Lookup.parse 1 [0, 10, 0, 8, 0, 20, 0, 5]).isSome = true := by
  rfl

/-- C5 (amended): a Format-10 lookup parses successfully for any value_size
(given a complete header); a value_size outside {1, 2, 4} — in particular the
recognised but unsupported 8 — instead makes `Lookup::value` return none for
every glyph. -/
theorem c5_format10_unsupported_value_size (n : Nat) (data : List Nat)
    (vs fg gc : Nat)
    (hfmt : readU16At data 0 = some 10)
    (hvs : readU16At data 2 = some vs)
    (hfg : readU16At data 4 = some fg)
    (hgc : readU16At data 6 = some gc)
    (h1 : vs ≠ 1) (h2 : vs ≠ 2) (h4 : vs ≠ 4) :
    Lookup.parse n data = some ⟨.format10 vs fg gc (data.drop 8)⟩
    ∧ ∀ g, Lookup.value ⟨.format10 vs fg gc (data.drop 8)⟩ g = none := by
  constructor
  · unfold Lookup.parse LookupInner.parse
    rw [hfmt, hvs, hfg, hgc]
    rfl
  · intro g
    simp only [Lookup.value, LookupInner.value]
    cases hsub : checkedSub g fg with
    | none => rfl
    | some idx =>
      rcases vs with _ | _ | _ | _ | _ | vs
      · rfl
      · exact absurd rfl h1
      · exact absurd rfl h2
      · rfl
      · exact absurd rfl h4
      · rfl

/-- Witness for C5 at a concrete Format-10 header with value_size = 8. -/
theorem c5_format10_unsupported_value_size_witness :
    Lookup.parse 1 [0, 10, 0, 8, 0, 20, 0, 5]
      = some ⟨.format10 8 20 5 (([0, 10, 0, 8, 0, 20, 0, 5] : List Nat).drop 8)⟩
    ∧ ∀ g, Lookup.value ⟨.format10 8 20 5 (([0, 10, 0, 8, 0, 20, 0, 5] : List Nat).drop 8)⟩ g
        = none :=
  c5_format10_unsupported_value_size 1 [0, 10, 0, 8, 0, 20, 0, 5] 8 20 5
    rfl rfl rfl rfl (by decide) (by decide) (by decide)

/-- C10: in a Format-10 lookup with value_size = 4, an in-range glyph reads
the 32-bit big-endian element at index g − first_glyph and the value is
truncated to its low 16 bits (the u32 is cast to u16), not rejected. -/
theorem c10_format10_u32_truncation (fg gc : Nat) (data : List Nat) (g v : Nat)
    (hg : fg ≤ g) (hidx : g - fg < gc) (hlen : gc * 4 ≤ data.length)
    (hv : readU32At data ((g - fg) * 4) = some v) :
    LookupInner.value (.format10 4 fg gc data) g = some (v % 65536) := by
  have hsub : checkedSub g fg = some (g - fg) := by simp [checkedSub, hg]
  have harr : readArray16 u32Data data gc = some ⟨u32Data, data.take (gc * 4), gc⟩ := by
    simp only [readArray16, u32Data]
    rw [if_pos hlen]
  have hslice : ∀ j, j < 4 →
      (((data.take (gc * 4)).drop ((g - fg) * 4)).take 4)[j]? = data[(g - fg) * 4 + j]? := by
    intro j hj
    rw [List.getElem?_take_of_lt hj, List.getElem?_drop,
      List.getElem?_take_of_lt (by omega)]
  have hget : (LazyArr.get ⟨u32Data, data.take (gc * 4), gc⟩ (g - fg)) = some v := by
    unfold LazyArr.get
    rw [if_pos hidx]
    show readU32At (((data.take (gc * 4)).drop ((g - fg) * 4)).take 4) 0 = some v
    unfold readU32At
    rw [hslice 0 (by omega), hslice 1 (by omega), hslice 2 (by omega),
      hslice 3 (by omega)]
    rw [Nat.add_zero]
    exact hv
  simp only [LookupInner.value]
  rw [hsub, harr]
  simp only [Option.some_bind]
  rw [hget]
  rfl

/-- Witness for C10: the stored u32 0x00012345 at index 1 comes back as
0x2345 (= 9029). -/
theorem c10_format10_u32_truncation_witness :
    LookupInner.value (.format10 4 10 2 [0, 0, 0, 0, 0, 1, 35, 69]) 11
      = some (74565 % 65536) :=
  c10_format10_u32_truncation 10 2 [0, 0, 0, 0, 0, 1, 35, 69] 11 74565
    (by decide) (by decide) (by decide) (by rfl)

/-! ## Claim C3: correctness of the Format-2 binary search -/

/-- One unfolding step of the binary-search loop when the interval is
non-empty and the midpoint element parses. -/
theorem bsearchLoop_step {α : Type} (bsv : BSearchValue α) (values : LazyArr α)
    (key : Nat) (fuel : Nat) (min max : Int) (hc : min ≤ max) (v : α)
    (hv : values.get ((min + max) / 2).toNat = some v) :
    bsearchLoop bsv values key (fuel + 1) min max =
      match bsv.contains v key with
      | .lt => bsearchLoop bsv values key fuel min ((min + max) / 2 - 1)
      | .gt => bsearchLoop bsv values key fuel ((min + max) / 2 + 1) max
      | .eq => some v := by
  simp only [bsearchLoop, if_pos hc]
  rw [hv]

/-- The segment comparison orders the key left of a segment it precedes. -/
theorem segContains_lt (v : LookupSegment) (key : Nat) (h : key < v.first_glyph) :
    segBSV.contains v key = .lt := by
  simp only [segBSV]
  rw [if_pos h]

/-- The segment comparison reports a hit inside the segment range. -/
theorem segContains_eq (v : LookupSegment) (key : Nat) (h1 : ¬ key < v.first_glyph)
    (h2 : key ≤ v.last_glyph) : segBSV.contains v key = .eq := by
  simp only [segBSV]
  rw [if_neg h1, if_pos h2]

/-- The segment comparison orders the key right of a segment it follows. -/
theorem segContains_gt (v : LookupSegment) (key : Nat) (h1 : ¬ key < v.first_glyph)
    (h2 : ¬ key ≤ v.last_glyph) : segBSV.contains v key = .gt := by
  simp only [segBSV]
  rw [if_neg h1, if_neg h2]

/-- Correctness invariant of the binary-search loop over a sorted, disjoint
segment prefix: with enough fuel and the covering candidates confined to
the interval, the loop finds the covering segment, and misses exactly when
no segment covers the key. -/
theorem bsearchLoop_segments_correct (arr : LazyArr LookupSegment)
    (f : Nat → LookupSegment) (len : Nat) (key : Nat)
    (hget : ∀ i, i < len → arr.get i = some (f i))
    (hwf : ∀ i, i < len → (f i).first_glyph ≤ (f i).last_glyph)
    (hsorted : ∀ j, j < len → ∀ i, i < j → (f i).last_glyph < (f j).first_glyph) :
    ∀ (fuel : Nat) (min max : Int), 0 ≤ min → max < (len : Int) →
      (∀ j, j < len → (j : Int) < min → (f j).last_glyph < key) →
      (∀ j, j < len → max < (j : Int) → key < (f j).first_glyph) →
      (max - min + 1).toNat < fuel →
      ((∀ j, j < len → (f j).first_glyph ≤ key → key ≤ (f j).last_glyph →
          bsearchLoop segBSV arr key fuel min max = some (f j))
       ∧ ((∀ j, j < len → ¬ ((f j).first_glyph ≤ key ∧ key ≤ (f j).last_glyph)) →
          bsearchLoop segBSV arr key fuel min max = none)) := by
  intro fuel
  induction fuel with
  | zero =>
    intro min max _ _ _ _ hfuel
    omega
  | succ fuel ih =>
    intro min max hmin hmax hleft hright hfuel
    by_cases hc : min ≤ max
    · have hmid1 : min ≤ (min + max) / 2 := by omega
      have hmid2 : (min + max) / 2 ≤ max := by omega
      have hmnn : 0 ≤ (min + max) / 2 := by omega
      have hmnat : (((min + max) / 2).toNat : Int) = (min + max) / 2 :=
        Int.toNat_of_nonneg hmnn
      have hmlt : ((min + max) / 2).toNat < len := by omega
      rw [bsearchLoop_step segBSV arr key fuel min max hc _ (hget _ hmlt)]
      by_cases h1 : key < (f ((min + max) / 2).toNat).first_glyph
      · -- the key lies strictly left of the midpoint segment
        rw [segContains_lt _ _ h1]
        have hsub := ih min ((min + max) / 2 - 1) hmin (by omega) hleft
          (by
            intro j hj hjgt
            rcases Nat.lt_or_ge ((min + max) / 2).toNat j with hlt | hge
            · exact lt_of_le_of_lt
                (le_trans (le_of_lt h1) (hwf _ hmlt))
                (hsorted j hj _ hlt)
            · have hj2 : j = ((min + max) / 2).toNat := by omega
              rw [hj2]
              exact h1)
          (by omega)
        constructor
        · intro j hj hcov1 hcov2
          exact hsub.1 j hj hcov1 hcov2
        · intro hnone
          exact hsub.2 hnone
      · by_cases h2 : key ≤ (f ((min + max) / 2).toNat).last_glyph
        · -- hit at the midpoint segment
          rw [segContains_eq _ _ h1 h2]
          constructor
          · intro j hj hcov1 hcov2
            have hj2 : j = ((min + max) / 2).toNat := by
              rcases Nat.lt_trichotomy j ((min + max) / 2).toNat with hlt | heq | hgt
              · exact absurd hcov2
                  (not_le.mpr (lt_of_lt_of_le (hsorted _ hmlt j hlt) (not_lt.mp h1)))
              · exact heq
              · exact absurd hcov1
                  (not_le.mpr (lt_of_le_of_lt h2 (hsorted j hj _ hgt)))
            rw [hj2]
          · intro hnone
            exact absurd ⟨not_lt.mp h1, h2⟩ (hnone _ hmlt)
        · -- the key lies strictly right of the midpoint segment
          rw [segContains_gt _ _ h1 h2]
          have hsub := ih ((min + max) / 2 + 1) max (by omega) hmax
            (by
              intro j hj hjlt
              rcases Nat.lt_or_ge j ((min + max) / 2).toNat with hlt | hge
              · exact lt_trans
                  (lt_of_lt_of_le (hsorted _ hmlt j hlt) (hwf _ hmlt))
                  (not_le.mp h2)
              · have hj2 : j = ((min + max) / 2).toNat := by omega
                rw [hj2]
                exact not_le.mp h2)
            hright (by omega)
          constructor
          · intro j hj hcov1 hcov2
            exact hsub.1 j hj hcov1 hcov2
          · intro hnone
            exact hsub.2 hnone
    · -- empty interval: the loop misses, and nothing can be covered
      have hnone : bsearchLoop segBSV arr key (fuel + 1) min max = none := by
        simp only [bsearchLoop, if_neg hc]
      constructor
      · intro j hj hcov1 hcov2
        rcases Int.lt_or_le (j : Int) min with hjm | hjm
        · exact absurd hcov2 (not_le.mpr (hleft j hj hjm))
        · have : max < (j : Int) := by omega
          exact absurd hcov1 (not_le.mpr (hright j hj this))
      · intro _
        exact hnone

/-- C3: for a Format-2 lookup whose searchable segments (sentinel excluded)
are well-formed, pairwise disjoint and sorted, `value(g)` is the covering
segment's value exactly when some segment range covers g, and none when no
segment covers g. -/
theorem c3_format2_lookup_correct (t : BinarySearchTable LookupSegment)
    (f : Nat → LookupSegment) (g : Nat)
    (hget : ∀ i, i < t.len → t.values.get i = some (f i))
    (hwf : ∀ i, i < t.len → (f i).first_glyph ≤ (f i).last_glyph)
    (hsorted : ∀ j, j < t.len → ∀ i, i < j → (f i).last_glyph < (f j).first_glyph) :
    (∀ i, i < t.len → (f i).first_glyph ≤ g → g ≤ (f i).last_glyph →
        LookupInner.value (.format2 t) g = some ((f i).value))
    ∧ ((∀ i, i < t.len → ¬ ((f i).first_glyph ≤ g ∧ g ≤ (f i).last_glyph)) →
        LookupInner.value (.format2 t) g = none) := by
  have h := bsearchLoop_segments_correct t.values f t.len g hget hwf hsorted
    (t.len + 1) 0 ((t.len : Int) - 1) le_rfl (by omega)
    (by intro j hj hjlt; omega)
    (by intro j hj hjgt; omega)
    (by omega)
  simp only [LookupInner.value, BinarySearchTable.get]
  constructor
  · intro i hi hcov1 hcov2
    rw [h.1 i hi hcov1 hcov2]
    rfl
  · intro hnone
    rw [h.2 hnone]
    rfl

/-- The concrete Format-2 table of the C3 witness: segments (10..20 ↦ 100)
and (30..40 ↦ 200) plus the sentinel, as on-disk bytes. -/
def c3Table : BinarySearchTable LookupSegment :=
  ⟨⟨lookupSegmentData,
    [0, 20, 0, 10, 0, 100, 0, 40, 0, 30, 0, 200, 255, 255, 255, 255, 0, 0], 3⟩, 2⟩

/-- The segments of the C3 witness table, as a function. -/
def c3Segs : Nat → LookupSegment :=
  fun i => if i = 0 then ⟨20, 10, 100⟩ else ⟨40, 30, 200⟩

/-- Witness for C3: glyph 15 is covered by the first segment and resolves to
its value; glyph 25 is covered by no segment and resolves to none. -/
theorem c3_format2_lookup_correct_witness :
    LookupInner.value (.format2 c3Table) 15 = some 100
    ∧ LookupInner.value (.format2 c3Table) 25 = none :=
  ⟨(c3_format2_lookup_correct c3Table c3Segs 15 (by decide) (by decide)
      (by decide)).1 0 (by decide) (by decide) (by decide),
   (c3_format2_lookup_correct c3Table c3Segs 25 (by decide) (by decide)
      (by decide)).2 (by decide)⟩

/-! ## Claim C6: mandatory tables in face assembly (`lib.rs`,
`FaceTables::from_table_provider`)

The collaborator parsers for `head`, `hhea` and `maxp` live outside the two
provided source files, so they are taken as arbitrary function parameters;
only the one property the spec pins down is assumed where needed
(a full-checking parser rejects the empty slice; the default `head` record
has `units_per_em = 0`, which is exactly what the source's zero test keys on).
-/

/-- The construction-time error enum `FaceParsingError`. -/
inductive FaceParsingError where
  | MalformedFont
  | UnknownMagic
  | FaceIndexOutOfBounds
  | NoHeadTable
  | NoHheaTable
  | NoMaxpTable
deriving DecidableEq

/-- Modelled from the spec: the `head` collaborator record; only
`units_per_em` is consulted by the core. -/
structure HeadTable where
  units_per_em : Nat
deriving DecidableEq

/-- Modelled from the spec: `head::Table::default()`, the value kept when the
head table is absent or unparsable; zeroing `units_per_em` marks the head
table missing (spec 4.E and 8.4). -/
def HeadTable.default : HeadTable := ⟨0⟩

/-- The four-byte table tags matched by the provider loop, as u32 values. -/
def tagHead : Nat := Tag.fromBytes 104 101 97 100

def tagHhea : Nat := Tag.fromBytes 104 104 101 97

def tagMaxp : Nat := Tag.fromBytes 109 97 120 112

/-- The state accumulated by the provider loop for the mandatory tables:
the (possibly default) head record, the raw hhea slice (initially empty)
and the parsed maxp record, exactly as in `from_table_provider`. -/
structure TablesState (M : Type) where
  head : HeadTable
  hhea : List Nat
  maxp : Option M

/-- The provider loop of `from_table_provider`: each item may surface an
error (the `?` on the iterator item); a `head` item is parsed with the
default as fallback, an `hhea` item stores the raw slice, a `maxp` item is
parsed best-effort, and all other tags leave these three bindings untouched. -/
def scanTables {M : Type} (parseHead : List Nat → Option HeadTable)
    (parseMaxp : List Nat → Option M) :
    List (Except FaceParsingError (Nat × Option (List Nat))) → TablesState M →
    Except FaceParsingError (TablesState M)
  | [], st => .ok st
  | item :: rest, st =>
    match item with
    | .error e => .error e
    | .ok (tag, table_data) =>
      let st :=
        if tag = tagHead then
          { st with head := (table_data.bind parseHead).getD HeadTable.default }
        else if tag = tagHhea then { st with hhea := table_data.getD [] }
        else if tag = tagMaxp then { st with maxp := table_data.bind parseMaxp }
        else st
      scanTables parseHead parseMaxp rest st

/-- The mandatory bindings of an assembled face. -/
structure FaceCore (H M : Type) where
  head : HeadTable
  hhea : H
  maxp : M

/-- `FaceTables::from_table_provider`, restricted to the mandatory-table
outcome: run the provider loop, then fail with `NoHeadTable` when
`units_per_em` is zero, with `NoHheaTable` when the stored hhea slice does
not parse, and with `NoMaxpTable` when no maxp record was parsed. -/
def fromTableProvider {H M : Type} (parseHead : List Nat → Option HeadTable)
    (parseHhea : List Nat → Option H) (parseMaxp : List Nat → Option M)
    (provider : List (Except FaceParsingError (Nat × Option (List Nat)))) :
    Except FaceParsingError (FaceCore H M) :=
  match scanTables parseHead parseMaxp provider ⟨HeadTable.default, [], none⟩ with
  | .error e => .error e
  | .ok st =>
    if st.head.units_per_em = 0 then .error .NoHeadTable
    else
      match parseHhea st.hhea with
      | none => .error .NoHheaTable
      | some hh =>
        match st.maxp with
        | none => .error .NoMaxpTable
        | some mx => .ok ⟨st.head, hh, mx⟩

/-- The head binding never changes across items that do not carry the head
tag. -/
theorem scanTables_head_frame {M : Type} (parseHead : List Nat → Option HeadTable)
    (parseMaxp : List Nat → Option M)
    (items : List (Except FaceParsingError (Nat × Option (List Nat))))
    (st0 st : TablesState M)
    (hrun : scanTables parseHead parseMaxp items st0 = .ok st)
    (habs : ∀ d, Except.ok (tagHead, d) ∉ items) :
    st.head = st0.head := by
  induction items generalizing st0 with
  | nil =>
    cases hrun
    rfl
  | cons item rest ih =>
    match item with
    | .error e => cases hrun
    | .ok (tag, table_data) =>
      simp only [scanTables] at hrun
      have htag : tag ≠ tagHead := by
        intro h
        exact habs table_data (by rw [h] at hrun ⊢; exact List.mem_cons_self _ _)
      rw [if_neg htag] at hrun
      have hrest : ∀ d, Except.ok (tagHead, d) ∉ rest := by
        intro d hmem
        exact habs d (List.mem_cons_of_mem _ hmem)
      by_cases h2 : tag = tagHhea
      · rw [if_pos h2] at hrun
        have h := ih _ hrun hrest
        exact h
      · rw [if_neg h2] at hrun
        by_cases h3 : tag = tagMaxp
        · rw [if_pos h3] at hrun
          have h := ih _ hrun hrest
          exact h
        · rw [if_neg h3] at hrun
          exact ih _ hrun hrest

/-- The hhea binding never changes across items that do not carry the hhea
tag. -/
theorem scanTables_hhea_frame {M : Type} (parseHead : List Nat → Option HeadTable)
    (parseMaxp : List Nat → Option M)
    (items : List (Except FaceParsingError (Nat × Option (List Nat))))
    (st0 st : TablesState M)
    (hrun : scanTables parseHead parseMaxp items st0 = .ok st)
    (habs : ∀ d, Except.ok (tagHhea, d) ∉ items) :
    st.hhea = st0.hhea := by
  induction items generalizing st0 with
  | nil =>
    cases hrun
    rfl
  | cons item rest ih =>
    match item with
    | .error e => cases hrun
    | .ok (tag, table_data) =>
      simp only [scanTables] at hrun
      have htag : tag ≠ tagHhea := by
        intro h
        exact habs table_data (by rw [h] at hrun ⊢; exact List.mem_cons_self _ _)
      have hrest : ∀ d, Except.ok (tagHhea, d) ∉ rest := by
        intro d hmem
        exact habs d (List.mem_cons_of_mem _ hmem)
      by_cases h1 : tag = tagHead
      · rw [if_pos h1] at hrun
        have h := ih _ hrun hrest
        exact h
      · rw [if_neg h1, if_neg htag] at hrun
        by_cases h3 : tag = tagMaxp
        · rw [if_pos h3] at hrun
          have h := ih _ hrun hrest
          exact h
        · rw [if_neg h3] at hrun
          exact ih _ hrun hrest

/-- The maxp binding stays empty when every maxp item is absent or
unparsable. -/
theorem scanTables_maxp_none {M : Type} (parseHead : List Nat → Option HeadTable)
    (parseMaxp : List Nat → Option M)
    (items : List (Except FaceParsingError (Nat × Option (List Nat))))
    (st0 st : TablesState M)
    (hrun : scanTables parseHead parseMaxp items st0 = .ok st)
    (hbad : ∀ d, Except.ok (tagMaxp, some d) ∈ items → parseMaxp d = none)
    (h0 : st0.maxp = none) :
    st.maxp = none := by
  induction items generalizing st0 with
  | nil =>
    cases hrun
    exact h0
  | cons item rest ih =>
    match item with
    | .error e => cases hrun
    | .ok (tag, table_data) =>
      simp only [scanTables] at hrun
      have hrest : ∀ d, Except.ok (tagMaxp, some d) ∈ rest → parseMaxp d = none := by
        intro d hmem
        exact hbad d (List.mem_cons_of_mem _ hmem)
      by_cases h1 : tag = tagHead
      · rw [if_pos h1] at hrun
        have h := ih _ hrun hrest h0
        exact h
      · rw [if_neg h1] at hrun
        by_cases h2 : tag = tagHhea
        · rw [if_pos h2] at hrun
          have h := ih _ hrun hrest h0
          exact h
        · rw [if_neg h2] at hrun
          by_cases h3 : tag = tagMaxp
          · rw [if_pos h3] at hrun
            refine ih _ hrun hrest ?_
            match table_data with
            | none => rfl
            | some d =>
              have hpd := hbad d (by rw [h3]; exact List.mem_cons_self _ _)
              simp [hpd]
          · rw [if_neg h3] at hrun
            exact ih _ hrun hrest h0

/-- C6: face assembly fails with `NoHeadTable` when the head table is absent
(or its `units_per_em` is zero), with `NoHheaTable` when the hhea table is
absent or unparsable, and with `NoMaxpTable` when the maxp table is absent
or unparsable; an error result produces no face value. -/
theorem c6_mandatory_tables {H M : Type} (parseHead : List Nat → Option HeadTable)
    (parseHhea : List Nat → Option H) (parseMaxp : List Nat → Option M)
    (provider : List (Except FaceParsingError (Nat × Option (List Nat))))
    (st : TablesState M)
    (hrun : scanTables parseHead parseMaxp provider ⟨HeadTable.default, [], none⟩ = .ok st)
    (hheaEmpty : parseHhea [] = none) :
    ((∀ d, Except.ok (tagHead, d) ∉ provider) →
        fromTableProvider parseHead parseHhea parseMaxp provider = .error .NoHeadTable)
    ∧ (st.head.units_per_em = 0 →
        fromTableProvider parseHead parseHhea parseMaxp provider = .error .NoHeadTable)
    ∧ (st.head.units_per_em ≠ 0 → (∀ d, Except.ok (tagHhea, d) ∉ provider) →
        fromTableProvider parseHead parseHhea parseMaxp provider = .error .NoHheaTable)
    ∧ (st.head.units_per_em ≠ 0 → parseHhea st.hhea = none →
        fromTableProvider parseHead parseHhea parseMaxp provider = .error .NoHheaTable)
    ∧ (st.head.units_per_em ≠ 0 → (∃ hh, parseHhea st.hhea = some hh) →
        (∀ d, Except.ok (tagMaxp, d) ∉ provider) →
        fromTableProvider parseHead parseHhea parseMaxp provider = .error .NoMaxpTable)
    ∧ (st.head.units_per_em ≠ 0 → (∃ hh, parseHhea st.hhea = some hh) →
        (∀ d, Except.ok (tagMaxp, some d) ∈ provider → parseMaxp d = none) →
        fromTableProvider parseHead parseHhea parseMaxp provider = .error .NoMaxpTable) := by
  have hdef : fromTableProvider parseHead parseHhea parseMaxp provider =
      (if st.head.units_per_em = 0 then .error .NoHeadTable
       else
         match parseHhea st.hhea with
         | none => .error .NoHheaTable
         | some hh =>
           match st.maxp with
           | none => .error .NoMaxpTable
           | some mx => .ok ⟨st.head, hh, mx⟩) := by
    unfold fromTableProvider
    rw [hrun]
  have hzero : st.head.units_per_em = 0 →
      fromTableProvider parseHead parseHhea parseMaxp provider = .error .NoHeadTable := by
    intro h0
    rw [hdef, if_pos h0]
  have hhea_err : st.head.units_per_em ≠ 0 → parseHhea st.hhea = none →
      fromTableProvider parseHead parseHhea parseMaxp provider = .error .NoHheaTable := by
    intro h0 hp
    rw [hdef, if_neg h0, hp]
  have hmaxp_err : st.head.units_per_em ≠ 0 → (∃ hh, parseHhea st.hhea = some hh) →
      st.maxp = none →
      fromTableProvider parseHead parseHhea parseMaxp provider = .error .NoMaxpTable := by
    intro h0 hex hm
    obtain ⟨hh, hp⟩ := hex
    rw [hdef, if_neg h0, hp, hm]
  refine ⟨?_, hzero, ?_, hhea_err, ?_, ?_⟩
  · intro habs
    apply hzero
    rw [scanTables_head_frame parseHead parseMaxp provider _ st hrun habs]
    rfl
  · intro h0 habs
    apply hhea_err h0
    rw [scanTables_hhea_frame parseHead parseMaxp provider _ st hrun habs]
    exact hheaEmpty
  · intro h0 hhh habs
    apply hmaxp_err h0 hhh
    exact scanTables_maxp_none parseHead parseMaxp provider _ st hrun
      (fun d hmem => absurd hmem (habs (some d))) rfl
  · intro h0 hhh hbad
    apply hmaxp_err h0 hhh
    exact scanTables_maxp_none parseHead parseMaxp provider _ st hrun hbad rfl

/-- Witness for C6: the empty provider offers none of the mandatory tables,
and face construction fails with `NoHeadTable`. -/
theorem c6_mandatory_tables_witness :
    fromTableProvider (H := Unit) (M := Unit) (fun _ => none) (fun _ => none)
      (fun _ => none) [] = .error .NoHeadTable :=
  (c6_mandatory_tables (fun _ => none) (fun _ => none) (fun _ => none) []
      ⟨HeadTable.default, [], none⟩ rfl rfl).1
    (fun d h => by cases h)

/-! ## Claim C7: the 32-axis variation cap (`lib.rs`,
`FaceTables::set_variation`)

The `fvar` axis record and its value normalization, and the `avar` remap,
are collaborators outside the two provided source files; the axis is
modelled with just the tag the core matches on, and the normalization and
remap functions are arbitrary parameters. Rust's in-place mutation is
modelled by returning the post-call face next to the `Option<()>` result. -/

/-- Modelled from the spec: an `fvar` variation axis; the core matches on
its tag only. -/
structure Axis where
  tag : Nat
deriving DecidableEq, BEq

/-- The face's variation-coordinate store: the fixed backing array and the
active length (`VarCoords`). -/
structure VarCoords where
  data : List Int
  len : Nat
deriving DecidableEq

/-- The face bindings consulted by `set_variation`: the `fvar` axes, the
optional `avar` table and the coordinate store. -/
structure FaceVar (A : Type) where
  fvar : Option (List Axis)
  avar : Option A
  coordinates : VarCoords

/-- `FaceTables::set_variation`: reject non-variable faces and unknown axes;
reject an axis index at or above `MAX_VAR_COORDS` (32) before any mutation;
otherwise store the normalized value and let `avar` remap the active slice,
swallowing remap errors. `normalizedValue` models the `fvar` collaborator's
`Axis::normalized_value` and `mapCoordinates` the net effect of
`avar::Table::map_coordinates` on the active slice. -/
def setVariation {V A : Type} (normalizedValue : Axis → V → Int)
    (mapCoordinates : A → List Int → List Int) (face : FaceVar A) (axis : Nat)
    (value : V) : Option Unit × FaceVar A :=
  match face.fvar with
  | none => (none, face)
  | some axes =>
    match axes.enum.find? (fun p => p.2.tag == axis) with
    | none => (none, face)
    | some (idx, a) =>
      if 32 ≤ idx then (none, face)
      else
        let coords := { face.coordinates with
          data := face.coordinates.data.set idx (normalizedValue a value) }
        let face1 := { face with coordinates := coords }
        let face2 :=
          match face1.avar with
          | none => face1
          | some av =>
            { face1 with coordinates := { face1.coordinates with
                data := mapCoordinates av
                    (face1.coordinates.data.take face1.coordinates.len)
                  ++ face1.coordinates.data.drop face1.coordinates.len } }
        (some (), face2)

/-- C7: `set_variation` on an axis whose index in the fvar axis list is 32
or greater returns none and leaves the face — in particular its stored
coordinate vector — unchanged. -/
theorem c7_variation_cap {V A : Type} (normalizedValue : Axis → V → Int)
    (mapCoordinates : A → List Int → List Int) (face : FaceVar A) (axis : Nat)
    (value : V) (axes : List Axis) (idx : Nat) (a : Axis)
    (hfvar : face.fvar = some axes)
    (hfind : axes.enum.find? (fun p => p.2.tag == axis) = some (idx, a))
    (hidx : 32 ≤ idx) :
    setVariation normalizedValue mapCoordinates face axis value = (none, face) := by
  simp only [setVariation, hfvar, hfind]
  rw [if_pos hidx]

/-- Witness for C7: on a face whose fvar lists 33 axes, requesting the axis
at index 32 returns none and keeps the face unchanged. -/
theorem c7_variation_cap_witness :
    setVariation (V := Unit) (A := Unit) (fun _ _ => 0) (fun _ c => c)
      ⟨some (List.replicate 32 ⟨0⟩ ++ [⟨7⟩]), none, ⟨List.replicate 32 0, 33⟩⟩ 7 ()
      = (none, ⟨some (List.replicate 32 ⟨0⟩ ++ [⟨7⟩]), none, ⟨List.replicate 32 0, 33⟩⟩) :=
  c7_variation_cap (fun _ _ => 0) (fun _ c => c)
    ⟨some (List.replicate 32 ⟨0⟩ ++ [⟨7⟩]), none, ⟨List.replicate 32 0, 33⟩⟩ 7 ()
    (List.replicate 32 ⟨0⟩ ++ [⟨7⟩]) 32 ⟨7⟩ rfl (by decide) (by decide)

/-! ## Claim C9: outline source dispatch order (`lib.rs`,
`FaceTables::outline_glyph`)

The four outline producers (`gvar::outline`, `glyf`'s, `cff`'s and `cff2`'s
outline methods) are collaborators outside the two provided source files and
are arbitrary parameters here; `cff`'s and `cff2`'s `Result`, discarded with
`.ok()`, is modelled as an option-producing function. -/

/-- The face bindings consulted by `outline_glyph`, over abstract table
types (G the gvar table, L the glyf table, F the cff table, T the cff2
table, S the coordinate slice). -/
structure FaceOutline (G L F T S : Type) where
  gvar : Option G
  glyf : Option L
  cff : Option F
  cff2 : Option T
  coords : S

/-- `FaceTables::outline_glyph`: with `gvar` present the gvar+glyf source is
used (and a missing `glyf` aborts with none, the `self.glyf?` early return);
otherwise `glyf`, else `cff`, else `cff2` with the current coordinates; a
face providing none of them yields none. -/
def outline_glyph {G L F T S R : Type}
    (gvarOutline : L → G → S → Nat → Option R)
    (glyfOutline : L → Nat → Option R)
    (cffOutline : F → Nat → Option R)
    (cff2Outline : T → S → Nat → Option R)
    (face : FaceOutline G L F T S) (glyph_id : Nat) : Option R :=
  match face.gvar with
  | some gv =>
    match face.glyf with
    | some gl => gvarOutline gl gv face.coords glyph_id
    | none => none
  | none =>
    match face.glyf with
    | some gl => glyfOutline gl glyph_id
    | none =>
      match face.cff with
      | some cf => cffOutline cf glyph_id
      | none =>
        match face.cff2 with
        | some c2 => cff2Outline c2 face.coords glyph_id
        | none => none

/-- C9: `outline_glyph` consults the sources in the fixed order gvar+glyf,
then glyf, then cff, then cff2 with the current coordinates, and the first
available source determines the result; in particular a face providing both
glyf and cff uses glyf, and a face providing only cff2 uses cff2. -/
theorem c9_outline_fallback_order {G L F T S R : Type}
    (gvarOutline : L → G → S → Nat → Option R)
    (glyfOutline : L → Nat → Option R)
    (cffOutline : F → Nat → Option R)
    (cff2Outline : T → S → Nat → Option R)
    (face : FaceOutline G L F T S) (glyph_id : Nat) :
    (∀ gv gl, face.gvar = some gv → face.glyf = some gl →
        outline_glyph gvarOutline glyfOutline cffOutline cff2Outline face glyph_id
          = gvarOutline gl gv face.coords glyph_id)
    ∧ (∀ gl, face.gvar = none → face.glyf = some gl →
        outline_glyph gvarOutline glyfOutline cffOutline cff2Outline face glyph_id
          = glyfOutline gl glyph_id)
    ∧ (∀ cf, face.gvar = none → face.glyf = none → face.cff = some cf →
        outline_glyph gvarOutline glyfOutline cffOutline cff2Outline face glyph_id
          = cffOutline cf glyph_id)
    ∧ (∀ c2, face.gvar = none → face.glyf = none → face.cff = none →
        face.cff2 = some c2 →
        outline_glyph gvarOutline glyfOutline cffOutline cff2Outline face glyph_id
          = cff2Outline c2 face.coords glyph_id) := by
  refine ⟨?_, ?_, ?_, ?_⟩
  · intro gv gl hgv hgl
    unfold outline_glyph
    rw [hgv, hgl]
  · intro gl hgv hgl
    unfold outline_glyph
    rw [hgv, hgl]
  · intro cf hgv hgl hcf
    unfold outline_glyph
    rw [hgv, hgl, hcf]
  · intro c2 hgv hgl hcf hc2
    unfold outline_glyph
    rw [hgv, hgl, hcf, hc2]

/-- Witness for C9: with distinct source results, a face with glyf and cff
(and no gvar) resolves through glyf, and a face with only cff2 resolves
through cff2. -/
theorem c9_outline_fallback_order_witness :
    outline_glyph (G := Unit) (L := Unit) (F := Unit) (T := Unit) (S := Unit)
      (fun _ _ _ _ => some 1) (fun _ _ => some 2)
      (fun _ _ => some 3) (fun _ _ _ => some 4)
      ⟨none, some (), some (), none, ()⟩ 0 = some 2
    ∧ outline_glyph (G := Unit) (L := Unit) (F := Unit) (T := Unit) (S := Unit)
        (fun _ _ _ _ => some 1) (fun _ _ => some 2)
        (fun _ _ => some 3) (fun _ _ _ => some 4)
        ⟨none, none, none, some (), ()⟩ 0 = some 4 :=
  ⟨(c9_outline_fallback_order (fun _ _ _ _ => some 1) (fun _ _ => some 2)
      (fun _ _ => some 3) (fun _ _ _ => some 4)
      ⟨none, some (), some (), none, ()⟩ 0).2.1 () rfl rfl,
   (c9_outline_fallback_order (fun _ _ _ _ => some 1) (fun _ _ => some 2)
      (fun _ _ => some 3) (fun _ _ _ => some 4)
      ⟨none, none, none, some (), ()⟩ 0).2.2.2 () rfl rfl rfl rfl⟩

end TtfParser
